import Mathlib

/-!
Shallow embedding of the shado gradient-export code base.

JS strings are modelled as `List Char`, JS numbers as `ℚ` (every IEEE double
is a rational; transcendental library calls such as `Math.pow(c, 1/2.4)`,
`Math.cos`, `Math.sin` and the platform constant `Math.PI` are passed in as
function/value parameters), and `Math.random()` draws are passed in as
explicit parameters.  Fallible computations return `Option`; a JS `NaN`
produced by `0/0` or `parseFloat` on a digitless capture is modelled by
`none`.
-/

namespace Shado

/-! String layer: JS strings as lists of characters. -/

abbrev Str := List Char

/-- Character list of a string literal. -/
def js (s : String) : Str := s.data

/-- Whitespace test used for the JS regex class and String.trim (ASCII subset). -/
def isWS (c : Char) : Bool :=
  c = ' ' || c = '\t' || c = '\n' || c = '\r' || c = '\x0b' || c = '\x0c'

/-- JS `s.startsWith(p)`. -/
def strStartsWith : Str → Str → Bool
  | _, [] => true
  | [], _ :: _ => false
  | c :: s, p :: ps => c = p && strStartsWith s ps

/-- JS `s.trim()`: strip leading and trailing whitespace. -/
def jsTrim (s : Str) : Str :=
  ((s.dropWhile isWS).reverse.dropWhile isWS).reverse

/-- JS `Math.round(x)`: floor of x + 1/2. -/
def jsRound (x : ℚ) : ℤ := ⌊x + 1 / 2⌋

/-- Decimal digits of a natural number. -/
def natToChars (n : ℕ) : Str := Nat.toDigits 10 n

/-- Decimal rendering of an integer. -/
def intToChars (i : ℤ) : Str :=
  if i < 0 then '-' :: natToChars i.natAbs else natToChars i.toNat

/-! ColorNormalizer: src/src/lib/color-palette.ts -/

/-- `labToRgb` (color-palette.ts lines 52-88).  `pw` models
`Math.pow(·, 1/2.4)` inside the sRGB gamma encode; everything else is exact
rational arithmetic on the source's constants. -/
def invGamma (t : ℚ) : ℚ :=
  if t > 0.206893034422 then t ^ 3 else (t - 16 / 116) / 7.787

/-- The inner `gammaCorrect` of `labToRgb`: gamma-encode one linear channel
value and clamp-round it to 0..255. -/
def gammaCorrect (pw : ℚ → ℚ) (c : ℚ) : ℤ :=
  jsRound (max 0 (min 1 (if c > 0.0031308 then 1.055 * pw c - 0.055 else 12.92 * c)) * 255)

/-- LAB → RGB conversion, returning the (r, g, b) channel triple. -/
def labToRgb (pw : ℚ → ℚ) (l a b : ℚ) : ℤ × ℤ × ℤ :=
  let y := (l + 16) / 116
  let x := a / 500 + y
  let z := y - b / 200
  let x2 := 95.047 * invGamma x
  let y2 := 100.0 * invGamma y
  let z2 := 108.883 * invGamma z
  let r := x2 * 3.2406 + y2 * (-1.5372) + z2 * (-0.4986)
  let g := x2 * (-0.9689) + y2 * 1.8758 + z2 * 0.0415
  let bVal := x2 * 0.0557 + y2 * (-0.2040) + z2 * 1.0570
  (gammaCorrect pw (r / 100), gammaCorrect pw (g / 100), gammaCorrect pw (bVal / 100))

/-- Character class `[0-9.]` of the LAB regex captures. -/
def isDigitDot (c : Char) : Bool := c.isDigit || c = '.'

/-- Value of a (possibly empty) run of decimal digits. -/
def digitsToNat (ds : Str) : ℕ :=
  ds.foldl (fun n c => 10 * n + (c.toNat - '0'.toNat)) 0

/-- Core of JS `parseFloat` on inputs drawn from the class `[0-9.]+`:
integer digits, then an optional dot and fraction digits; anything after a
second dot is ignored, and a capture with no digits at all gives NaN
(`none`). -/
def jsParseFloatCore (s : Str) : Option ℚ :=
  let ip := s.takeWhile Char.isDigit
  let rest := s.dropWhile Char.isDigit
  match rest with
  | '.' :: t =>
    let fp := t.takeWhile Char.isDigit
    if ip.isEmpty && fp.isEmpty then none
    else some ((digitsToNat ip : ℚ) + (digitsToNat fp : ℚ) / 10 ^ fp.length)
  | _ => if ip.isEmpty then none else some ((digitsToNat ip : ℚ))

/-- JS `parseFloat` on the regex captures `-?[0-9.]+`. -/
def jsParseFloat (s : Str) : Option ℚ :=
  match s with
  | '-' :: t => (jsParseFloatCore t).map (fun q => -q)
  | _ => jsParseFloatCore s

/-- Captured groups of the LAB color regex
`/^lab\(\s*([\d.]+)%\s+(-?[\d.]+)\s+(-?[\d.]+)(?:\s*\/\s*([\d.]+))?\s*\)$/i`. -/
structure LabCaps where
  lCap : Str
  aCap : Str
  bCap : Str
  alphaCap : Option Str
deriving DecidableEq

/-- Take a nonempty maximal run of `[0-9.]` characters. -/
def takeNum (s : Str) : Option (Str × Str) :=
  let n := s.takeWhile isDigitDot
  if n.isEmpty then none else some (n, s.dropWhile isDigitDot)

/-- Take `-?[0-9.]+`; the capture includes the sign. -/
def takeSignedNum (s : Str) : Option (Str × Str) :=
  match s with
  | '-' :: t => (takeNum t).map (fun p => ('-' :: p.1, p.2))
  | _ => takeNum s

/-- Match `\s+`: require at least one whitespace character, consume the run. -/
def skipWS1 (s : Str) : Option Str :=
  match s with
  | c :: t => if isWS c then some (t.dropWhile isWS) else none
  | [] => none

/-- The LAB regex body after the `lab(` opener: `\s*` then the three numeric
captures, the optional `/ alpha` group, `\s*` and the closing `)` at the end
of the string.  The character classes of neighbouring pieces are disjoint,
so greedy maximal-munch needs no backtracking. -/
def labMatchBody (s : Str) : Option LabCaps :=
  match takeNum (s.dropWhile isWS) with
  | none => none
  | some (c1, r1) =>
    match r1 with
    | '%' :: r2 =>
      match skipWS1 r2 with
      | none => none
      | some r3 =>
        match takeSignedNum r3 with
        | none => none
        | some (c2, r4) =>
          match skipWS1 r4 with
          | none => none
          | some r5 =>
            match takeSignedNum r5 with
            | none => none
            | some (c3, r6) =>
              let r7 := r6.dropWhile isWS
              match r7 with
              | '/' :: r8 =>
                match takeNum (r8.dropWhile isWS) with
                | none => none
                | some (c4, r9) =>
                  if r9.dropWhile isWS = [')'] then some ⟨c1, c2, c3, some c4⟩ else none
              | _ => if r7 = [')'] then some ⟨c1, c2, c3, none⟩ else none
    | _ => none

/-- Whole-string LAB regex match; the `i` flag makes the `lab` letters
case-insensitive. -/
def labMatch (s : Str) : Option LabCaps :=
  match s with
  | c1 :: c2 :: c3 :: c4 :: rest =>
    if c1.toLower = 'l' && c2.toLower = 'a' && c3.toLower = 'b' && c4 = '(' then
      labMatchBody rest
    else none
  | _ => none

/-- `labToRgb` lifted over possibly-NaN inputs: in JS a NaN operand makes
every output channel NaN, since each of r, g, b depends on all of x, y, z. -/
def labToRgbOpt (pw : ℚ → ℚ) : Option ℚ → Option ℚ → Option ℚ → Option ℤ × Option ℤ × Option ℤ
  | some l, some a, some b =>
    let t := labToRgb pw l a b
    (some t.1, some t.2.1, some t.2.2)
  | _, _, _ => (none, none, none)

/-- Template interpolation of a channel value (`NaN` for a NaN channel). -/
def chanChars : Option ℤ → Str
  | some i => intToChars i
  | none => js "NaN"

/-- Fraction digits of a rational in [0,1) whose denominator divides a power
of ten, fuel-bounded. -/
def fracChars : ℕ → ℚ → Str
  | 0, _ => []
  | n + 1, q =>
    if q = 0 then []
    else
      let q10 := q * 10
      let d := ⌊q10⌋
      Char.ofNat ('0'.toNat + d.toNat) :: fracChars n (q10 - (d : ℚ))

/-- Template interpolation of the parsed alpha number. -/
def ratChars (x : Option ℚ) : Str :=
  match x with
  | none => js "NaN"
  | some q =>
    let ip := ⌊q⌋
    let fr := q - (ip : ℚ)
    if fr = 0 then intToChars ip
    else intToChars ip ++ '.' :: fracChars 30 fr

/-- JS `alpha < 1` (false when alpha is NaN). -/
def alphaLt1 : Option ℚ → Bool
  | some q => decide (q < 1)
  | none => false

/-- `parseColorToRgb` (color-palette.ts lines 94-128).  `browser` models the
scratch-div fallback: the `getComputedStyle(div).color` string the browser
returns for the token. -/
def parseColorToRgb (pw : ℚ → ℚ) (browser : Str → Str) (colorStr : Str) : Str :=
  if strStartsWith colorStr (js "rgb(") || strStartsWith colorStr (js "#") then colorStr
  else
    match labMatch colorStr with
    | some caps =>
      let l := jsParseFloat caps.lCap
      let a := jsParseFloat caps.aCap
      let b := jsParseFloat caps.bCap
      let alpha := match caps.alphaCap with
        | some s => jsParseFloat s
        | none => some 1
      let t := labToRgbOpt pw l a b
      if alphaLt1 alpha then
        js "rgba(" ++ chanChars t.1 ++ js ", " ++ chanChars t.2.1 ++ js ", " ++
          chanChars t.2.2 ++ js ", " ++ ratChars alpha ++ js ")"
      else
        js "rgb(" ++ chanChars t.1 ++ js ", " ++ chanChars t.2.1 ++ js ", " ++
          chanChars t.2.2 ++ js ")"
    | none =>
      let rgb := browser colorStr
      if rgb = [] || rgb = js "inherit" then js "rgb(255,0,255)" else rgb

/-- `toCssColor` (color-palette.ts lines 134-138). -/
def toCssColor (pw : ℚ → ℚ) (browser : Str → Str) (colorStr : Str) : Str :=
  if strStartsWith (jsTrim colorStr) (js "lab(") then parseColorToRgb pw browser colorStr
  else colorStr

/-- `processGradientColors` on the array shape (color-palette.ts line 145). -/
def processGradientColorsArr (pw : ℚ → ℚ) (browser : Str → Str) (colors : List Str) : List Str :=
  colors.map (toCssColor pw browser)

/-- One match of the case-sensitive global regex `/lab\([^\)]+\)/`: the
matched segment and the remainder after it. -/
def labSegment (s : Str) : Option (Str × Str) :=
  match s with
  | 'l' :: 'a' :: 'b' :: '(' :: rest =>
    let content := rest.takeWhile (fun c => c ≠ ')')
    match rest.dropWhile (fun c => c ≠ ')') with
    | ')' :: after =>
      if content.isEmpty then none
      else some ('l' :: 'a' :: 'b' :: '(' :: (content ++ [')']), after)
    | _ => none
  | _ => none

/-- `processGradientColors` on the gradient-string shape (color-palette.ts
line 148): replace every `lab(...)` occurrence via `toCssColor`,
left-to-right and non-overlapping; fuel-bounded scan. -/
def processGradientColorsStr (pw : ℚ → ℚ) (browser : Str → Str) : ℕ → Str → Str
  | 0, s => s
  | _ + 1, [] => []
  | fuel + 1, c :: t =>
    match labSegment (c :: t) with
    | some (m, after) => toCssColor pw browser m ++ processGradientColorsStr pw browser fuel after
    | none => c :: processGradientColorsStr pw browser fuel t

/-! RasterExporter, strategy A: src/src/lib/exportGradient.ts -/

/-- One blob datum handed to the exporter (`{path, color}`); the path string
is opaque to the exporter, which only feeds it to `new Path2D`. -/
structure BlobData where
  path : Str
  color : Str
deriving DecidableEq

/-- The parameter object of `exportGradientToCanvas`. -/
structure ExportArgs where
  type : Str
  colors : List Str
  angle : ℚ
  width : ℚ
  height : ℚ
  scale : ℚ
  format : Str
  variant : Option Str
  blobs : List BlobData
  fileName : Str

/-- One `addColorStop(offset, color)` call; `offset = none` models a
non-finite JS offset such as `0/0`. -/
structure ColorStop where
  offset : Option ℚ
  color : Str
deriving DecidableEq

/-- JS division as used for stop offsets: non-finite results (zero
denominator) are `none`. -/
def jsDiv (num den : ℚ) : Option ℚ := if den = 0 then none else some (num / den)

/-- The stop list built by `colors.forEach((color, i) =>
grad.addColorStop(i / (colors.length - 1), color))` (exportGradient.ts
lines 77-79). -/
def linearStops (colors : List Str) : List ColorStop :=
  ((List.range colors.length).zip colors).map fun p =>
    ⟨jsDiv (p.1 : ℚ) ((colors.length : ℚ) - 1), p.2⟩

/-- A primitive drawing operation issued against the export canvas. -/
inductive DrawOp
  | fillRect (color : Str) (x y w h : ℚ)
  | gradientFill (x0 y0 x1 y1 : ℚ) (stops : List ColorStop) (x y w h : ℚ)
  | blobFill (blurPx : ℚ) (path : Str) (color : Str) (alpha : ℚ)
deriving DecidableEq

/-- The offscreen canvas state built by one `exportGradientToCanvas` call:
its allocated pixel dimensions, the drawing operations painted onto it, and
the encoding/download parameters handed to `canvas.toBlob`. -/
structure ExportCanvas where
  width : ℚ
  height : ℚ
  ops : List DrawOp
  mime : Str
  quality : ℚ
  downloadName : Str

/-- `exportGradientToCanvas` (exportGradient.ts lines 48-128).  `cosF`,
`sinF` and `piV` model `Math.cos`, `Math.sin` and `Math.PI`. -/
def exportGradientToCanvas (cosF sinF : ℚ → ℚ) (piV : ℚ) (a : ExportArgs) : ExportCanvas :=
  let exportWidth := a.width * a.scale
  let exportHeight := a.height * a.scale
  let ops :=
    if a.type = js "linear" then
      let rad := a.angle * piV / 180
      let x0 := exportWidth / 2 + exportWidth / 2 * cosF (rad + piV)
      let y0 := exportHeight / 2 + exportHeight / 2 * sinF (rad + piV)
      let x1 := exportWidth / 2 + exportWidth / 2 * cosF rad
      let y1 := exportHeight / 2 + exportHeight / 2 * sinF rad
      [DrawOp.gradientFill x0 y0 x1 y1 (linearStops a.colors) 0 0 exportWidth exportHeight]
    else if a.type = js "blob" ∧ a.blobs ≠ [] then
      (if a.variant = some (js "dark") then
        [DrawOp.fillRect (js "#0A0A0A") 0 0 exportWidth exportHeight]
      else if a.variant = some (js "light") then
        [DrawOp.fillRect (js "#fff") 0 0 exportWidth exportHeight]
      else []) ++ a.blobs.map (fun b => DrawOp.blobFill 40 b.path b.color 0.9)
    else
      [DrawOp.fillRect (a.colors.headD (js "#fff")) 0 0 exportWidth exportHeight]
  { width := exportWidth
    height := exportHeight
    ops := ops
    mime := js "image/" ++ a.format
    quality := if a.format = js "jpg" then 0.92 else if a.format = js "webp" then 0.85 else 1
    downloadName := a.fileName ++ '.' :: a.format }

/-! LinearGradientCard: src/src/components/LinearGradientCard.tsx -/

/-- The `stops` memo (LinearGradientCard.tsx lines 45-57).  The source
guard `variant === 'smooth' && currentColors.length >= 3` is expressed by
matching three leading colors, which is the same condition. -/
def stops (variant : Str) (currentColors : List Str) : List Str :=
  if variant = js "smooth" then
    match currentColors with
    | color1 :: color2 :: color3 :: _ =>
      [color1 ++ js " 0%", color2 ++ js " 50%", color3 ++ js " 100%"]
    | _ => currentColors.take 4
  else currentColors.take 4

/-! BlurryBlobCard blob generation (the two card revisions). -/

inductive Region
  | center
  | topLeft
  | topRight
  | bottomLeft
  | bottomRight
deriving DecidableEq

/-- The module-level `regions` constant (the four quadrants). -/
def regions : List Region := [.topLeft, .topRight, .bottomLeft, .bottomRight]

/-- The five canonical regions a blob may occupy. -/
def canonicalRegions : List Region := [.center, .topLeft, .topRight, .bottomLeft, .bottomRight]

/-- The `baseOffsets` table of `getRegionOffset`. -/
def baseOffset : Region → ℚ × ℚ
  | .center => (0.5, 0.5)
  | .topLeft => (0.25, 0.25)
  | .topRight => (0.75, 0.25)
  | .bottomLeft => (0.25, 0.75)
  | .bottomRight => (0.75, 0.75)

/-- `getRegionOffset` with its two `Math.random()` draws passed in as
`jx`, `jy`. -/
def getRegionOffset (region : Region) (jx jy containerWidth containerHeight : ℚ) : ℚ × ℚ :=
  let offsetRange : ℚ := 0.2
  (((baseOffset region).1 + (jx - 0.5) * offsetRange) * containerWidth,
   ((baseOffset region).2 + (jy - 0.5) * offsetRange) * containerHeight)

/-- The circle path built by `generateBlobPath(x, y, size)`: two
semicircular arcs of radius `size / 2` centered at `(x, y)`. -/
structure PathSpec where
  x : ℚ
  y : ℚ
  radius : ℚ
deriving DecidableEq

def generateBlobPath (x y size : ℚ) : PathSpec := ⟨x, y, size / 2⟩

/-- One generated blob together with the region it was assigned to (in the
source the region is the generation loop variable; the emitted record keeps
only path and color). -/
structure GenBlob where
  region : Region
  path : PathSpec
  color : Str
deriving DecidableEq

/-- `generateBlobs` of the richer card revision: regions and colors are both
shuffled (the random comparator sort is modelled by the permutation
parameters), blob sizes vary per blob.  `regPerm` is the shuffled `regions`,
`colorPerm` the shuffled colors, `sizeRand r` the `Math.random()` draw of
the size variation for the blob at region `r`. -/
def generateBlobsShuffled (regPerm : List Region) (colorPerm : List Str)
    (jx jy sizeRand : Region → ℚ) (width height : ℚ) : List GenBlob :=
  let blobSize := max width height * 0.8
  let shuffledRegions := Region.center :: regPerm
  let shuffledColors := colorPerm.take (min colorPerm.length 4)
  (shuffledRegions.zip shuffledColors).map fun p =>
    let o := getRegionOffset p.1 (jx p.1) (jy p.1) width height
    let sizeVariation := 0.7 + sizeRand p.1 * 0.6
    ⟨p.1, generateBlobPath o.1 o.2 (blobSize * sizeVariation), p.2⟩

/-- `generateBlobs` of the plain card revision: colors are used in order,
only regions are shuffled, all blobs share one size. -/
def generateBlobsPlain (regPerm : List Region) (colors : List Str)
    (jx jy : Region → ℚ) (width height : ℚ) : List GenBlob :=
  let blobSize := max width height * 0.8
  let blobRegions := Region.center :: regPerm
  let usedColors := colors.take (min colors.length 4)
  (blobRegions.zip usedColors).map fun p =>
    let o := getRegionOffset p.1 (jx p.1) (jy p.1) width height
    ⟨p.1, generateBlobPath o.1 o.2 blobSize, p.2⟩

/-- Regions assigned in one generation, in paint order. -/
def blobRegionsOf (bs : List GenBlob) : List Region := bs.map (·.region)

/-! ExportSizeEstimator: the size-estimation effect of ExportModal. -/

/-- A formatted size string: `bytes n` renders as "n B", `kb t` / `mb t`
render the value `t / 10` with one decimal ("1.5 KB", "2.0 MB"). -/
inductive SizeText
  | bytes (n : ℤ)
  | kb (tenths : ℤ)
  | mb (tenths : ℤ)
deriving DecidableEq

/-- JS `x.toFixed(1)` on a nonnegative number, as an integer count of
tenths. -/
def jsToFixed1 (x : ℚ) : ℤ := jsRound (x * 10)

/-- The inner `formatSize` of the estimation effect. -/
def formatSize (b : ℚ) : SizeText :=
  if b < 1024 then .bytes (jsRound b)
  else if b < 1024 * 1024 then .kb (jsToFixed1 (b / 1024))
  else .mb (jsToFixed1 (b / (1024 * 1024)))

/-- The per-format multiplier applied to the uncompressed RGBA base size
(JPG 0.15, WEBP 0.2, anything else — PNG — 0.3). -/
def compressionFactor (format : Str) : ℚ :=
  if format = js "JPG" then 0.15 else if format = js "WEBP" then 0.2 else 0.3

/-- The byte estimate: base `width*height*scale*scale*4`, then the format
multiplier, then the 1.2 safety buffer. -/
def estimatedBytes (width height scale : ℚ) (format : Str) : ℚ :=
  width * height * scale * scale * 4 * compressionFactor format * 1.2

/-- The whole estimation effect (ExportModal lines 48-80): it bails out
without setting an estimate when width or height is nonpositive. -/
def sizeEstimate (width height scale : ℚ) (format : Str) : Option SizeText :=
  if width ≤ 0 ∨ height ≤ 0 then none
  else some (formatSize (estimatedBytes width height scale format))

/-! Dithering: `applyDithering` of ExportModal, and the pixel transform the
export pipeline actually applies before encoding. -/

/-- One RGBA pixel of the canvas pixel buffer, channels 0..255. -/
structure Pixel where
  r : ℤ
  g : ℤ
  b : ℤ
  a : ℤ
deriving DecidableEq

/-- A `Uint8ClampedArray` store: clamp to [0, 255], round to nearest with
ties to even. -/
def u8c (x : ℚ) : ℤ :=
  let c := max 0 (min 255 x)
  let q := ⌊c⌋
  let fr := c - (q : ℚ)
  if fr < 1 / 2 then q
  else if 1 / 2 < fr then q + 1
  else if q % 2 = 0 then q else q + 1

/-- The noise term `(Math.random() - 0.5) * 4`; `rand k` is the k-th
`Math.random()` draw of the dithering loop. -/
def ditherNoise (rand : ℕ → ℚ) (k : ℕ) : ℚ := (rand k - 0.5) * 4

/-- The per-pixel loop of `applyDithering`: perturb r, g, b through the
clamped store, leave the alpha byte untouched. -/
def ditherPixels (rand : ℕ → ℚ) : ℕ → List Pixel → List Pixel
  | _, [] => []
  | k, p :: t =>
    { r := u8c ((p.r : ℚ) + ditherNoise rand (3 * k))
      g := u8c ((p.g : ℚ) + ditherNoise rand (3 * k + 1))
      b := u8c ((p.b : ℚ) + ditherNoise rand (3 * k + 2))
      a := p.a } :: ditherPixels rand (k + 1) t

/-- `applyDithering` (ExportModal lines 83-110): a no-op for PNG, the noise
loop for the 8-bit formats. -/
def applyDithering (format : Str) (rand : ℕ → ℚ) (buf : List Pixel) : List Pixel :=
  if format = js "PNG" then buf else ditherPixels rand 0 buf

/-- The pixel-buffer transform the export pipeline applies between painting
and encoding: `handleExport` calls `exportGradientToCanvas`, which paints
the canvas and hands it straight to `canvas.toBlob` (exportGradient.ts
lines 107-127) — no pixel-level pass runs in between, for any format. -/
def exportEncodeInput (format : Str) (painted : List Pixel) : List Pixel := painted

/-- The linear gradient endpoints as the spec words them: each endpoint is
the canvas center plus the `(w/2, h/2)`-scaled direction of the angle
(`θ+180°` for p0, `θ` for p1), angles in degrees converted through `π/180`. -/
def specLinearEndpoints (cosF sinF : ℚ → ℚ) (piV angleDeg w h : ℚ) : (ℚ × ℚ) × (ℚ × ℚ) :=
  ((w / 2 + w / 2 * cosF ((angleDeg + 180) * piV / 180),
    h / 2 + h / 2 * sinF ((angleDeg + 180) * piV / 180)),
   (w / 2 + w / 2 * cosF (angleDeg * piV / 180),
    h / 2 + h / 2 * sinF (angleDeg * piV / 180)))

/-- The uppercase LAB token of the C2 counterexample: valid CSS LAB
color (CSS color function names are case-insensitive, and the source's own
regex carries the `i` flag), yet missed by the case-sensitive
`startsWith('lab(')` guard of `toCssColor`. -/
def labCx : Str := js "LAB(53% 80 67)"

/-- A one-pixel painted buffer used to evaluate the export pipeline. -/
def c1Buf : List Pixel := [⟨100, 100, 100, 255⟩]

/-- A concrete linear export request (the scenario of the spec). -/
def linDemoArgs : ExportArgs :=
  { type := js "linear", colors := [js "#FF0000", js "#0000FF"], angle := 45,
    width := 800, height := 450, scale := 2, format := js "png",
    variant := none, blobs := [], fileName := js "gradient-linear" }

/-! Helper lemmas about the string layer. -/

theorem startsWith_append (p t : Str) : strStartsWith (p ++ t) p = true := by
  induction p with
  | nil => simp [strStartsWith]
  | cons c ps ih => simp [strStartsWith, ih]

theorem startsWith_iff {s p : Str} : strStartsWith s p = true ↔ ∃ t, s = p ++ t := by
  induction p generalizing s with
  | nil => simp [strStartsWith]
  | cons c ps ih =>
    cases s with
    | nil => simp [strStartsWith]
    | cons a t =>
      simp only [strStartsWith, Bool.and_eq_true, decide_eq_true_eq, ih, List.cons_append,
        List.cons.injEq]
      constructor
      · rintro ⟨rfl, u, rfl⟩; exact ⟨u, rfl, rfl⟩
      · rintro ⟨u, rfl, rfl⟩; exact ⟨rfl, u, rfl⟩

theorem startsWith_cons {s : Str} {c : Char} {p : Str} (h : strStartsWith s (c :: p) = true) :
    ∃ t, s = c :: t := by
  rcases startsWith_iff.mp h with ⟨t, rfl⟩
  exact ⟨p ++ t, rfl⟩

theorem dropWhile_append_cons (f : Char → Bool) (l₁ : Str) (c : Char) (l₂ : Str)
    (hc : f c = false) :
    (l₁ ++ c :: l₂).dropWhile f = l₁.dropWhile f ++ c :: l₂ := by
  induction l₁ with
  | nil => simp [List.dropWhile_cons, hc]
  | cons a l ih =>
    cases hfa : f a <;> simp [List.dropWhile_cons, hfa, ih]

theorem jsTrim_startsWith (c d : Char) (m m2 t : Str) (hrev : (c :: m).reverse = d :: m2)
    (hc : isWS c = false) (hd : isWS d = false) :
    strStartsWith (jsTrim ((c :: m) ++ t)) (c :: m) = true := by
  have h1 : ((c :: m) ++ t).dropWhile isWS = (c :: m) ++ t := by
    simp [List.dropWhile_cons, hc]
  have h2 : (d :: m2).reverse = c :: m := by
    rw [← hrev, List.reverse_reverse]
  rw [jsTrim, h1, List.reverse_append, hrev, dropWhile_append_cons isWS _ d m2 hd,
    List.reverse_append, h2]
  exact startsWith_append _ _

theorem startsWith_false_of_head {a b : Char} (s p : Str) (hab : a ≠ b) :
    strStartsWith (a :: s) (b :: p) = false := by
  simp [strStartsWith, hab]

/-! Claim theorems. -/

/-- C2 counterexample: the uppercase token `LAB(53% 80 67)` is a LAB token
(the source's own case-insensitive regex matches it), yet `toCssColor`
returns it unchanged, so a LAB token survives normalization and reaches the
drawing call. -/
theorem c2_counterexample :
    toCssColor id (fun _ => js "rgb(0, 0, 0)") labCx = labCx ∧
    (labMatch labCx).isSome = true := by
  constructor
  · decide
  · decide

/-- C2 (amended): every well-formed LAB token whose prefix is the lowercase
`lab(` is rewritten by `toCssColor` into rgb/rgba form; the detection is
case-sensitive, so this lowercase restriction is necessary (see the
counterexample). -/
theorem c2_lowercase_lab_rewritten (pw : ℚ → ℚ) (browser : Str → Str) (tok : Str)
    (hmatch : (labMatch tok).isSome = true) (hlow : strStartsWith tok (js "lab(") = true) :
    strStartsWith (toCssColor pw browser tok) (js "rgb(") = true ∨
    strStartsWith (toCssColor pw browser tok) (js "rgba(") = true := by
  rcases startsWith_iff.mp hlow with ⟨t0, ht⟩
  have hguard : strStartsWith (jsTrim tok) (js "lab(") = true := by
    rw [ht]
    exact jsTrim_startsWith 'l' '(' ['a', 'b', '('] ['b', 'a', 'l'] t0 rfl (by decide) (by decide)
  have hrgbF : strStartsWith tok (js "rgb(") = false := by
    rw [ht]; exact startsWith_false_of_head _ _ (by decide)
  have hhashF : strStartsWith tok (js "#") = false := by
    rw [ht]; exact startsWith_false_of_head _ _ (by decide)
  rcases Option.isSome_iff_exists.mp hmatch with ⟨caps, hcaps⟩
  rw [toCssColor, if_pos hguard, parseColorToRgb, if_neg (by rw [hrgbF, hhashF]; simp),
    hcaps]
  dsimp only
  by_cases halpha :
      alphaLt1 (match caps.alphaCap with
        | some s => jsParseFloat s
        | none => some 1) = true
  · right
    rw [if_pos halpha]
    simp only [List.append_assoc]
    exact startsWith_append _ _
  · left
    rw [if_neg halpha]
    simp only [List.append_assoc]
    exact startsWith_append _ _

theorem c2_witness :
    (labMatch (js "lab(50% 0 0)")).isSome = true ∧
    strStartsWith (js "lab(50% 0 0)") (js "lab(") = true ∧
    (strStartsWith (toCssColor id (fun _ => []) (js "lab(50% 0 0)")) (js "rgb(") = true ∨
     strStartsWith (toCssColor id (fun _ => []) (js "lab(50% 0 0)")) (js "rgba(") = true) :=
  ⟨by decide, by decide, c2_lowercase_lab_rewritten id (fun _ => []) _ (by decide) (by decide)⟩

/-- C9: normalization is the identity on tokens that already start with
`rgb(` or `#` — for `parseColorToRgb`, `toCssColor` and the element-wise
`processGradientColors`. -/
theorem c9_normalization_identity (pw : ℚ → ℚ) (browser : Str → Str) :
    (∀ s : Str, strStartsWith s (js "rgb(") = true ∨ strStartsWith s (js "#") = true →
      parseColorToRgb pw browser s = s ∧ toCssColor pw browser s = s) ∧
    (∀ l : List Str,
      (∀ s ∈ l, strStartsWith s (js "rgb(") = true ∨ strStartsWith s (js "#") = true) →
      processGradientColorsArr pw browser l = l) := by
  have main : ∀ s : Str, strStartsWith s (js "rgb(") = true ∨ strStartsWith s (js "#") = true →
      parseColorToRgb pw browser s = s ∧ toCssColor pw browser s = s := by
    intro s hs
    have htrim : strStartsWith (jsTrim s) (js "lab(") = false := by
      rcases hs with h | h
      · rcases startsWith_iff.mp h with ⟨t0, ht⟩
        have h1 : strStartsWith (jsTrim s) (js "rgb(") = true := by
          rw [ht]
          exact jsTrim_startsWith 'r' '(' ['g', 'b', '('] ['b', 'g', 'r'] t0 rfl
            (by decide) (by decide)
        rcases startsWith_cons h1 with ⟨u, hu⟩
        rw [hu]
        exact startsWith_false_of_head _ _ (by decide)
      · rcases startsWith_iff.mp h with ⟨t0, ht⟩
        have h1 : strStartsWith (jsTrim s) (js "#") = true := by
          rw [ht]
          exact jsTrim_startsWith '#' '#' [] [] t0 rfl (by decide) (by decide)
        rcases startsWith_cons h1 with ⟨u, hu⟩
        rw [hu]
        exact startsWith_false_of_head _ _ (by decide)
    constructor
    · rw [parseColorToRgb, if_pos]
      rcases hs with h | h <;> simp [h]
    · rw [toCssColor, if_neg]
      simp [htrim]
  refine ⟨main, ?_⟩
  intro l hl
  induction l with
  | nil => rfl
  | cons a t ih =>
    have ha := (main a (hl a (by simp))).2
    have ht : processGradientColorsArr pw browser t = t :=
      ih (fun s hsmem => hl s (by simp [hsmem]))
    simpa [processGradientColorsArr, ha] using ht

theorem c9_witness :
    (strStartsWith (js "#ff0000") (js "rgb(") = true ∨
     strStartsWith (js "#ff0000") (js "#") = true) ∧
    parseColorToRgb id (fun _ => []) (js "#ff0000") = js "#ff0000" ∧
    toCssColor id (fun _ => []) (js "#ff0000") = js "#ff0000" :=
  ⟨Or.inr (by decide),
   ((c9_normalization_identity id (fun _ => [])).1 _ (Or.inr (by decide))).1,
   ((c9_normalization_identity id (fun _ => [])).1 _ (Or.inr (by decide))).2⟩

/-- C1: the export pipeline never dithers.  The painted buffer reaches the
encoder unchanged for jpg and webp (the transform between painting and
`toBlob` is the identity), while the never-invoked `applyDithering` would
have perturbed the pixels — here a noise draw of `3/4` shifts every RGB
channel by +1 and preserves alpha, producing a buffer different from what
the pipeline actually encodes. -/
theorem c1_pipeline_never_dithers :
    exportEncodeInput (js "jpg") c1Buf = c1Buf ∧
    exportEncodeInput (js "webp") c1Buf = c1Buf ∧
    applyDithering (js "JPG") (fun _ => 3 / 4) c1Buf = [⟨101, 101, 101, 255⟩] ∧
    applyDithering (js "JPG") (fun _ => 3 / 4) c1Buf ≠ exportEncodeInput (js "jpg") c1Buf := by
  have hd : applyDithering (js "JPG") (fun _ => 3 / 4) c1Buf = [⟨101, 101, 101, 255⟩] := by
    rw [applyDithering, if_neg (by decide)]
    show ditherPixels (fun _ => 3 / 4) 0 [⟨100, 100, 100, 255⟩] = [⟨101, 101, 101, 255⟩]
    rw [ditherPixels, ditherPixels]
    norm_num [u8c, ditherNoise]
  refine ⟨rfl, rfl, hd, ?_⟩
  rw [hd]
  exact fun hcontra => by simpa [exportEncodeInput, c1Buf] using hcontra

/-- C3: the `stops` memo of the linear card yields `min(n, 4)` stops for
any non-smooth variant; for the smooth variant with at least 3 colors it
yields exactly the three stops `c1 0%`, `c2 50%`, `c3 100%` from the first
three colors; and the smooth variant with fewer than 3 colors behaves
exactly like the default variant. -/
theorem c3_stop_counts (variant : Str) (cs : List Str) :
    (variant ≠ js "smooth" → (stops variant cs).length = min cs.length 4) ∧
    (3 ≤ cs.length → ∃ c1 c2 c3 rest, cs = c1 :: c2 :: c3 :: rest ∧
      stops (js "smooth") cs = [c1 ++ js " 0%", c2 ++ js " 50%", c3 ++ js " 100%"]) ∧
    (cs.length < 3 → stops (js "smooth") cs = stops (js "default") cs) ∧
    (stops (js "default") cs).length = min cs.length 4 := by
  have hne : js "default" ≠ js "smooth" := by decide
  refine ⟨?_, ?_, ?_, ?_⟩
  · intro hv
    rcases cs with _ | ⟨a, _ | ⟨b, _ | ⟨c, rest⟩⟩⟩ <;>
      simp [stops, hv, List.length_take] <;> omega
  · intro h3
    match cs, h3 with
    | c1 :: c2 :: c3 :: rest, _ =>
      exact ⟨c1, c2, c3, rest, rfl, by simp [stops]⟩
  · intro hlt
    match cs, hlt with
    | [], _ => simp [stops, hne]
    | [a], _ => simp [stops, hne]
    | [a, b], _ => simp [stops, hne]
  · rcases cs with _ | ⟨a, _ | ⟨b, _ | ⟨c, rest⟩⟩⟩ <;>
      simp [stops, hne, List.length_take] <;> omega

theorem c3_witness :
    js "linear" ≠ js "smooth" ∧
    (stops (js "linear") [js "#a", js "#b", js "#c", js "#d", js "#e"]).length =
      min ([js "#a", js "#b", js "#c", js "#d", js "#e"] : List Str).length 4 ∧
    3 ≤ ([js "#a", js "#b", js "#c"] : List Str).length ∧
    (∃ c1 c2 c3 rest, ([js "#a", js "#b", js "#c"] : List Str) = c1 :: c2 :: c3 :: rest ∧
      stops (js "smooth") [js "#a", js "#b", js "#c"] =
        [c1 ++ js " 0%", c2 ++ js " 50%", c3 ++ js " 100%"]) ∧
    ([js "#a"] : List Str).length < 3 ∧
    stops (js "smooth") [js "#a"] = stops (js "default") [js "#a"] :=
  ⟨by decide, (c3_stop_counts (js "linear") _).1 (by decide), by decide,
   (c3_stop_counts (js "default") _).2.1 (by decide), by decide,
   (c3_stop_counts (js "default") _).2.2.1 (by decide)⟩

/-- C4: the canvas allocated by `exportGradientToCanvas` — and hence the
output raster — has pixel dimensions exactly `(width * scale,
height * scale)`, for every export request. -/
theorem c4_canvas_dimensions (cosF sinF : ℚ → ℚ) (piV : ℚ) (a : ExportArgs) :
    (exportGradientToCanvas cosF sinF piV a).width = a.width * a.scale ∧
    (exportGradientToCanvas cosF sinF piV a).height = a.height * a.scale :=
  ⟨rfl, rfl⟩

/-- C5: for a linear export, the single gradient fill painted by
`exportGradientToCanvas` runs between exactly the endpoints the spec
describes: `p0 = center + (w/2, h/2)-scaled direction(θ+180°)` and
`p1 = center + (w/2, h/2)-scaled direction(θ)` on the export canvas
`(w, h) = (width*scale, height*scale)` — the code's `cos(rad + π)` argument
equals the spec's `(θ + 180)·π/180`. -/
theorem c5_linear_endpoints (cosF sinF : ℚ → ℚ) (piV : ℚ) (a : ExportArgs)
    (hlin : a.type = js "linear") :
    (exportGradientToCanvas cosF sinF piV a).ops =
      [DrawOp.gradientFill
        ((specLinearEndpoints cosF sinF piV a.angle (a.width * a.scale)
          (a.height * a.scale)).1).1
        ((specLinearEndpoints cosF sinF piV a.angle (a.width * a.scale)
          (a.height * a.scale)).1).2
        ((specLinearEndpoints cosF sinF piV a.angle (a.width * a.scale)
          (a.height * a.scale)).2).1
        ((specLinearEndpoints cosF sinF piV a.angle (a.width * a.scale)
          (a.height * a.scale)).2).2
        (linearStops a.colors) 0 0 (a.width * a.scale) (a.height * a.scale)] := by
  have harg : a.angle * piV / 180 + piV = (a.angle + 180) * piV / 180 := by ring
  rw [exportGradientToCanvas]
  dsimp only [specLinearEndpoints]
  rw [if_pos hlin, harg]

theorem c5_witness :
    linDemoArgs.type = js "linear" ∧
    (exportGradientToCanvas (fun q => q + 1) (fun q => q + 2) 3 linDemoArgs).ops =
      [DrawOp.gradientFill
        ((specLinearEndpoints (fun q => q + 1) (fun q => q + 2) 3 linDemoArgs.angle
          (linDemoArgs.width * linDemoArgs.scale) (linDemoArgs.height * linDemoArgs.scale)).1).1
        ((specLinearEndpoints (fun q => q + 1) (fun q => q + 2) 3 linDemoArgs.angle
          (linDemoArgs.width * linDemoArgs.scale) (linDemoArgs.height * linDemoArgs.scale)).1).2
        ((specLinearEndpoints (fun q => q + 1) (fun q => q + 2) 3 linDemoArgs.angle
          (linDemoArgs.width * linDemoArgs.scale) (linDemoArgs.height * linDemoArgs.scale)).2).1
        ((specLinearEndpoints (fun q => q + 1) (fun q => q + 2) 3 linDemoArgs.angle
          (linDemoArgs.width * linDemoArgs.scale) (linDemoArgs.height * linDemoArgs.scale)).2).2
        (linearStops linDemoArgs.colors) 0 0
        (linDemoArgs.width * linDemoArgs.scale) (linDemoArgs.height * linDemoArgs.scale)] :=
  ⟨rfl, c5_linear_endpoints (fun q => q + 1) (fun q => q + 2) 3 linDemoArgs rfl⟩

theorem gammaCorrect_mem (pw : ℚ → ℚ) (c : ℚ) :
    0 ≤ gammaCorrect pw c ∧ gammaCorrect pw c ≤ 255 := by
  have key : ∀ X : ℚ, 0 ≤ jsRound (max 0 (min 1 X) * 255) ∧
      jsRound (max 0 (min 1 X) * 255) ≤ 255 := by
    intro X
    have h0 : (0 : ℚ) ≤ max 0 (min 1 X) := le_max_left _ _
    have h1 : max 0 (min 1 X) ≤ 1 := max_le (by norm_num) (min_le_left _ _)
    rw [jsRound]
    constructor
    · exact Int.le_floor.mpr (by push_cast; nlinarith)
    · have hlt : ⌊max 0 (min 1 X) * 255 + 1 / 2⌋ < (256 : ℤ) :=
        Int.floor_lt.mpr (by push_cast; nlinarith)
      omega
  rw [gammaCorrect]
  exact key _

/-- C6: for every LAB input with L ∈ [0,100] and a, b ∈ [-128,127] (and any
realization `pw` of the transcendental `Math.pow(·, 1/2.4)`), `labToRgb`
produces channel values that all lie in [0, 255]: the final clamp-round in
`gammaCorrect` enforces the range. -/
theorem c6_lab_rgb_range (pw : ℚ → ℚ) (l a b : ℚ) (hl0 : 0 ≤ l) (hl1 : l ≤ 100)
    (ha0 : -128 ≤ a) (ha1 : a ≤ 127) (hb0 : -128 ≤ b) (hb1 : b ≤ 127) :
    0 ≤ (labToRgb pw l a b).1 ∧ (labToRgb pw l a b).1 ≤ 255 ∧
    0 ≤ (labToRgb pw l a b).2.1 ∧ (labToRgb pw l a b).2.1 ≤ 255 ∧
    0 ≤ (labToRgb pw l a b).2.2 ∧ (labToRgb pw l a b).2.2 ≤ 255 :=
  ⟨(gammaCorrect_mem _ _).1, (gammaCorrect_mem _ _).2,
   (gammaCorrect_mem _ _).1, (gammaCorrect_mem _ _).2,
   (gammaCorrect_mem _ _).1, (gammaCorrect_mem _ _).2⟩

theorem c6_witness :
    (0 : ℚ) ≤ 50 ∧ (50 : ℚ) ≤ 100 ∧ (-128 : ℚ) ≤ 80 ∧ (80 : ℚ) ≤ 127 ∧
    (-128 : ℚ) ≤ 67 ∧ (67 : ℚ) ≤ 127 ∧
    (0 ≤ (labToRgb id 50 80 67).1 ∧ (labToRgb id 50 80 67).1 ≤ 255 ∧
     0 ≤ (labToRgb id 50 80 67).2.1 ∧ (labToRgb id 50 80 67).2.1 ≤ 255 ∧
     0 ≤ (labToRgb id 50 80 67).2.2 ∧ (labToRgb id 50 80 67).2.2 ≤ 255) :=
  ⟨by norm_num, by norm_num, by norm_num, by norm_num, by norm_num, by norm_num,
   c6_lab_rgb_range id 50 80 67 (by norm_num) (by norm_num) (by norm_num) (by norm_num)
     (by norm_num) (by norm_num)⟩

theorem map_region_zip (l₁ : List Region) (l₂ : List Str) (F : Region × Str → GenBlob)
    (hF : ∀ p, (F p).region = p.1) :
    (((l₁.zip l₂).map F).map (fun gb => gb.region)) = l₁.take l₂.length := by
  induction l₁ generalizing l₂ with
  | nil => simp
  | cons r l ih =>
    cases l₂ with
    | nil => simp
    | cons c cs => simp [hF, ih]

theorem blob_gen_core (regPerm : List Region) (cs : List Str) (F : Region × Str → GenBlob)
    (hF : ∀ p, (F p).region = p.1) (hreg : regPerm.Perm regions) :
    (((Region.center :: regPerm).zip cs).map F).length = min 5 cs.length ∧
    (blobRegionsOf (((Region.center :: regPerm).zip cs).map F)).Nodup ∧
    (((Region.center :: regPerm).zip cs).map F ≠ [] →
      Region.center ∈ blobRegionsOf (((Region.center :: regPerm).zip cs).map F)) := by
  have hlen4 : regPerm.length = 4 := hreg.length_eq
  have hnd : (Region.center :: regPerm).Nodup := by
    refine List.nodup_cons.mpr ⟨fun hmem => ?_, (hreg.nodup_iff).mpr (by decide)⟩
    have : Region.center ∈ regions := hreg.mem_iff.mp hmem
    simp [regions] at this
  have hregs : blobRegionsOf (((Region.center :: regPerm).zip cs).map F) =
      (Region.center :: regPerm).take cs.length :=
    map_region_zip _ _ _ hF
  refine ⟨?_, ?_, ?_⟩
  · simp [List.length_zip, hlen4]
  · rw [blobRegionsOf] at hregs
    rw [blobRegionsOf, hregs]
    exact hnd.sublist (List.take_sublist _ _)
  · intro hne
    cases cs with
    | nil => simp at hne
    | cons c0 ct =>
      rw [blobRegionsOf] at hregs
      rw [blobRegionsOf, hregs]
      simp

/-- Every region value is one of the five canonical regions. -/
theorem region_mem_canonical (r : Region) : r ∈ canonicalRegions := by
  cases r <;> simp [canonicalRegions]

/-- C7: blob generation (both card revisions) produces exactly `min(n, 4)`
blobs for n colors; the assigned regions are drawn without repetition from
the five canonical regions; and whenever at least one blob exists, the
center region is among the assigned regions. -/
theorem c7_blob_invariants (regPerm : List Region) (colors colorPerm : List Str)
    (jx jy sizeRand jx2 jy2 : Region → ℚ) (w h w2 h2 : ℚ)
    (hreg : regPerm.Perm regions) (hcol : colorPerm.Perm colors) :
    ((generateBlobsShuffled regPerm colorPerm jx jy sizeRand w h).length =
       min colors.length 4 ∧
     (blobRegionsOf (generateBlobsShuffled regPerm colorPerm jx jy sizeRand w h)).Nodup ∧
     (∀ gb ∈ generateBlobsShuffled regPerm colorPerm jx jy sizeRand w h,
       gb.region ∈ canonicalRegions) ∧
     (generateBlobsShuffled regPerm colorPerm jx jy sizeRand w h ≠ [] →
       Region.center ∈ blobRegionsOf (generateBlobsShuffled regPerm colorPerm jx jy sizeRand w h))) ∧
    ((generateBlobsPlain regPerm colors jx2 jy2 w2 h2).length = min colors.length 4 ∧
     (blobRegionsOf (generateBlobsPlain regPerm colors jx2 jy2 w2 h2)).Nodup ∧
     (∀ gb ∈ generateBlobsPlain regPerm colors jx2 jy2 w2 h2, gb.region ∈ canonicalRegions) ∧
     (generateBlobsPlain regPerm colors jx2 jy2 w2 h2 ≠ [] →
       Region.center ∈ blobRegionsOf (generateBlobsPlain regPerm colors jx2 jy2 w2 h2))) := by
  have hklen : colorPerm.length = colors.length := hcol.length_eq
  have hgen1 : generateBlobsShuffled regPerm colorPerm jx jy sizeRand w h =
      ((Region.center :: regPerm).zip (colorPerm.take (min colorPerm.length 4))).map
        (fun p =>
          ⟨p.1, generateBlobPath (getRegionOffset p.1 (jx p.1) (jy p.1) w h).1
            (getRegionOffset p.1 (jx p.1) (jy p.1) w h).2
            (max w h * 0.8 * (0.7 + sizeRand p.1 * 0.6)), p.2⟩) := rfl
  have hgen2 : generateBlobsPlain regPerm colors jx2 jy2 w2 h2 =
      ((Region.center :: regPerm).zip (colors.take (min colors.length 4))).map
        (fun p =>
          ⟨p.1, generateBlobPath (getRegionOffset p.1 (jx2 p.1) (jy2 p.1) w2 h2).1
            (getRegionOffset p.1 (jx2 p.1) (jy2 p.1) w2 h2).2 (max w2 h2 * 0.8), p.2⟩) := rfl
  have core1 := blob_gen_core regPerm (colorPerm.take (min colorPerm.length 4))
    (fun p =>
      ⟨p.1, generateBlobPath (getRegionOffset p.1 (jx p.1) (jy p.1) w h).1
        (getRegionOffset p.1 (jx p.1) (jy p.1) w h).2
        (max w h * 0.8 * (0.7 + sizeRand p.1 * 0.6)), p.2⟩)
    (fun p => rfl) hreg
  have core2 := blob_gen_core regPerm (colors.take (min colors.length 4))
    (fun p =>
      ⟨p.1, generateBlobPath (getRegionOffset p.1 (jx2 p.1) (jy2 p.1) w2 h2).1
        (getRegionOffset p.1 (jx2 p.1) (jy2 p.1) w2 h2).2 (max w2 h2 * 0.8), p.2⟩)
    (fun p => rfl) hreg
  constructor
  · refine ⟨?_, ?_, ?_, ?_⟩
    · rw [hgen1, core1.1]
      simp [List.length_take, hklen]
      try omega
    · rw [hgen1]; exact core1.2.1
    · intro gb _; exact region_mem_canonical gb.region
    · rw [hgen1]; exact core1.2.2
  · refine ⟨?_, ?_, ?_, ?_⟩
    · rw [hgen2, core2.1]
      simp [List.length_take]
      try omega
    · rw [hgen2]; exact core2.2.1
    · intro gb _; exact region_mem_canonical gb.region
    · rw [hgen2]; exact core2.2.2

theorem c7_witness :
    regions.Perm regions ∧
    ([js "#a", js "#b"] : List Str).Perm [js "#a", js "#b"] ∧
    (((generateBlobsShuffled regions [js "#a", js "#b"] (fun _ => 0) (fun _ => 0) (fun _ => 0)
        800 450).length = min ([js "#a", js "#b"] : List Str).length 4 ∧
      (blobRegionsOf (generateBlobsShuffled regions [js "#a", js "#b"] (fun _ => 0) (fun _ => 0)
        (fun _ => 0) 800 450)).Nodup ∧
      (∀ gb ∈ generateBlobsShuffled regions [js "#a", js "#b"] (fun _ => 0) (fun _ => 0)
        (fun _ => 0) 800 450, gb.region ∈ canonicalRegions) ∧
      (generateBlobsShuffled regions [js "#a", js "#b"] (fun _ => 0) (fun _ => 0) (fun _ => 0)
        800 450 ≠ [] →
        Region.center ∈ blobRegionsOf (generateBlobsShuffled regions [js "#a", js "#b"]
          (fun _ => 0) (fun _ => 0) (fun _ => 0) 800 450))) ∧
     ((generateBlobsPlain regions [js "#a", js "#b"] (fun _ => 0) (fun _ => 0) 800 450).length =
        min ([js "#a", js "#b"] : List Str).length 4 ∧
      (blobRegionsOf (generateBlobsPlain regions [js "#a", js "#b"] (fun _ => 0) (fun _ => 0)
        800 450)).Nodup ∧
      (∀ gb ∈ generateBlobsPlain regions [js "#a", js "#b"] (fun _ => 0) (fun _ => 0) 800 450,
        gb.region ∈ canonicalRegions) ∧
      (generateBlobsPlain regions [js "#a", js "#b"] (fun _ => 0) (fun _ => 0) 800 450 ≠ [] →
        Region.center ∈ blobRegionsOf (generateBlobsPlain regions [js "#a", js "#b"]
          (fun _ => 0) (fun _ => 0) 800 450)))) :=
  ⟨List.Perm.refl _, List.Perm.refl _,
   c7_blob_invariants regions [js "#a", js "#b"] [js "#a", js "#b"]
     (fun _ => 0) (fun _ => 0) (fun _ => 0) (fun _ => 0) (fun _ => 0) 800 450 800 450
     (List.Perm.refl _) (List.Perm.refl _)⟩

/-- C8: the size estimator computes `width*height*scale²*4` bytes, scales
by the per-format factor (PNG 0.3, WEBP 0.2, JPG 0.15) and the 1.2 safety
buffer, and formats the result in B/KB/MB with one decimal beyond B; for
(800, 450, 2, PNG) the byte count is exactly 2 073 600 and the display is
2.0 MB. -/
theorem c8_size_estimator (w h s : ℚ) (fmt : Str) (hw : 0 < w) (hh : 0 < h) :
    sizeEstimate w h s fmt =
      some (formatSize (w * h * s ^ 2 * 4 * compressionFactor fmt * (6 / 5))) ∧
    compressionFactor (js "PNG") = 3 / 10 ∧
    compressionFactor (js "WEBP") = 1 / 5 ∧
    compressionFactor (js "JPG") = 3 / 20 ∧
    estimatedBytes 800 450 2 (js "PNG") = 2073600 ∧
    sizeEstimate 800 450 2 (js "PNG") = some (SizeText.mb 20) := by
  have hpng : compressionFactor (js "PNG") = 3 / 10 := by
    rw [compressionFactor, if_neg (by decide), if_neg (by decide)]; norm_num
  have hbytes : estimatedBytes 800 450 2 (js "PNG") = 2073600 := by
    rw [estimatedBytes, hpng]; norm_num
  refine ⟨?_, hpng, ?_, ?_, hbytes, ?_⟩
  · rw [sizeEstimate, if_neg (by rintro (h1 | h1) <;> linarith)]
    congr 1
    rw [estimatedBytes]
    ring
  · rw [compressionFactor, if_neg (by decide), if_pos (by decide)]; norm_num
  · rw [compressionFactor, if_pos (by decide)]; norm_num
  · rw [sizeEstimate, if_neg (by norm_num), hbytes, formatSize,
      if_neg (by norm_num), if_neg (by norm_num)]
    rw [jsToFixed1, jsRound]
    norm_num

theorem c8_witness :
    (0 : ℚ) < 800 ∧ (0 : ℚ) < 450 ∧
    sizeEstimate 800 450 2 (js "PNG") = some (SizeText.mb 20) :=
  ⟨by norm_num, by norm_num,
   (c8_size_estimator 800 450 2 (js "PNG") (by norm_num) (by norm_num)).2.2.2.2.2⟩

/-- C10: with a single color, the sole stop offset computed by the linear
export is `0 / (1 - 1)`, which is not a finite number (`none`), so no valid
color stop can be placed; with at least two colors every offset is a finite
number in [0, 1] — the stop placement's implicit precondition is n ≥ 2. -/
theorem c10_single_color_offset :
    (∀ c : Str, linearStops [c] = [⟨none, c⟩]) ∧
    (∀ colors : List Str, 2 ≤ colors.length →
      ∀ st ∈ linearStops colors, ∃ q, st.offset = some q ∧ 0 ≤ q ∧ q ≤ 1) := by
  constructor
  · intro c
    have h1 : List.range 1 = [0] := rfl
    simp [linearStops, h1, jsDiv]
  · intro colors h2 st hst
    rcases List.mem_map.mp hst with ⟨p, hp, rfl⟩
    have hi : p.1 < colors.length := List.mem_range.mp (List.of_mem_zip hp).1
    have hn : (2 : ℚ) ≤ (colors.length : ℚ) := by exact_mod_cast h2
    have hden : (0 : ℚ) < (colors.length : ℚ) - 1 := by linarith
    refine ⟨(p.1 : ℚ) / ((colors.length : ℚ) - 1), ?_, ?_, ?_⟩
    · show jsDiv (p.1 : ℚ) ((colors.length : ℚ) - 1) = _
      rw [jsDiv, if_neg (by linarith)]
    · exact div_nonneg (by positivity) (le_of_lt hden)
    · rw [div_le_one hden]
      have : (p.1 : ℚ) + 1 ≤ (colors.length : ℚ) := by exact_mod_cast hi
      linarith

theorem c10_witness :
    linearStops [js "#f00"] = [⟨none, js "#f00"⟩] ∧
    2 ≤ ([js "#a", js "#b"] : List Str).length ∧
    (⟨some 0, js "#a"⟩ : ColorStop) ∈ linearStops [js "#a", js "#b"] ∧
    (∃ q, (⟨some 0, js "#a"⟩ : ColorStop).offset = some q ∧ 0 ≤ q ∧ q ≤ 1) := by
  have hrange : List.range 2 = [0, 1] := rfl
  have hmem : (⟨some 0, js "#a"⟩ : ColorStop) ∈ linearStops [js "#a", js "#b"] := by
    simp [linearStops, hrange, jsDiv]
    norm_num
  exact ⟨c10_single_color_offset.1 _, by decide, hmem,
    c10_single_color_offset.2 _ (by decide) _ hmem⟩

end Shado
